import Mathlib

/-!
# The littlefs callback bridge of `sparkos/fs/littlefs/callbacks.c`

The C file defines four static functions, `spark_lfs_read`, `spark_lfs_prog`,
`spark_lfs_erase` and `spark_lfs_sync`, each of which forwards to a function of
the storage backend (`go_lfs_read`, `go_lfs_prog`, `go_lfs_erase`,
`go_lfs_sync`, declared but not defined in the file), and
`spark_lfs_config_init`, which stores the addresses of the four static
functions in a `struct lfs_config`.

Embedding.  A backend function is a state transformer on a state type `σ` that
stands for everything the backend can observe or change (the storage medium and
the memory the buffers point into); it returns the C `int` together with the new
state.  Pointers (`void *`) are addresses.  The bridge functions take the
backend as a parameter.  Function pointers stored in the configuration are
values of the type `FnPtr`; a call through a function pointer is resolved by
`lfs_call_read` and its siblings.
-/

namespace Spark

/-! ## Types of `lfs.h` used by the file -/

/-- A `void *`: an address.  The bridge never dereferences one. -/
abbrev Ptr := Nat

/-- The C type `lfs_block_t` (an unsigned 32-bit integer).  The bridge only
copies values of this type, it does no arithmetic on them. -/
abbrev lfs_block_t := Nat

/-- The C type `lfs_off_t` (an unsigned 32-bit integer), only copied. -/
abbrev lfs_off_t := Nat

/-- The C type `lfs_size_t` (an unsigned 32-bit integer), only copied. -/
abbrev lfs_size_t := Nat

/-- The value of a function pointer: null, the address of one of the four static
functions of `callbacks.c`, or the address of a function defined elsewhere. -/
inductive FnPtr where
  | null
  | spark_lfs_read
  | spark_lfs_prog
  | spark_lfs_erase
  | spark_lfs_sync
  | foreign (addr : Nat)
  deriving DecidableEq, Repr

/-- Modelled from the spec: `struct lfs_config`, declared in `lfs.h`, which is
not part of the sources.  The members are the configuration surface the spec
lists: the device context, the four operation bindings, the read and program
granularity, the block size and the block count.  `rest` holds the members the
spec does not name, as a sequence of words; `callbacks.c` names none of them. -/
structure lfs_config where
  context : Ptr
  read : FnPtr
  prog : FnPtr
  erase : FnPtr
  sync : FnPtr
  read_size : lfs_size_t
  prog_size : lfs_size_t
  block_size : lfs_size_t
  block_count : lfs_size_t
  rest : List Nat
  deriving DecidableEq, Repr

/-! ## The storage backend as a parameter -/

/-- The four functions declared at lines 7-10 of `callbacks.c`.  Each takes the
arguments of its C prototype and the state before the call, and returns the
`int` result together with the state after the call. -/
structure Backend (σ : Type) where
  go_lfs_read : Ptr → lfs_block_t → lfs_off_t → Ptr → lfs_size_t → σ → Int × σ
  go_lfs_prog : Ptr → lfs_block_t → lfs_off_t → Ptr → lfs_size_t → σ → Int × σ
  go_lfs_erase : Ptr → lfs_block_t → σ → Int × σ
  go_lfs_sync : Ptr → σ → Int × σ

/-! ## The bridge (lines 12-33 of `callbacks.c`) -/

/-- The function `spark_lfs_read`: `return go_lfs_read(c->context, block, off, buffer, size);` -/
def spark_lfs_read {σ : Type} (B : Backend σ) (c : lfs_config) (block : lfs_block_t)
    (off : lfs_off_t) (buffer : Ptr) (size : lfs_size_t) (w : σ) : Int × σ :=
  B.go_lfs_read c.context block off buffer size w

/-- The function `spark_lfs_prog`: `return go_lfs_prog(c->context, block, off, (void*)buffer, size);`
The cast drops the `const` qualifier and leaves the address as it is. -/
def spark_lfs_prog {σ : Type} (B : Backend σ) (c : lfs_config) (block : lfs_block_t)
    (off : lfs_off_t) (buffer : Ptr) (size : lfs_size_t) (w : σ) : Int × σ :=
  B.go_lfs_prog c.context block off buffer size w

/-- The function `spark_lfs_erase`: `return go_lfs_erase(c->context, block);` -/
def spark_lfs_erase {σ : Type} (B : Backend σ) (c : lfs_config) (block : lfs_block_t)
    (w : σ) : Int × σ :=
  B.go_lfs_erase c.context block w

/-- The function `spark_lfs_sync`: `return go_lfs_sync(c->context);` -/
def spark_lfs_sync {σ : Type} (B : Backend σ) (c : lfs_config) (w : σ) : Int × σ :=
  B.go_lfs_sync c.context w

/-- The function `spark_lfs_config_init`: four assignments, to `cfg->read`, `cfg->prog`,
`cfg->erase` and `cfg->sync`, in this order. -/
def spark_lfs_config_init (cfg : lfs_config) : lfs_config :=
  let cfg1 := { cfg with read := FnPtr.spark_lfs_read }
  let cfg2 := { cfg1 with prog := FnPtr.spark_lfs_prog }
  let cfg3 := { cfg2 with erase := FnPtr.spark_lfs_erase }
  { cfg3 with sync := FnPtr.spark_lfs_sync }

/-! ## Calls through the bindings of a configuration -/

/-- The call `cfg->read(cfg, block, off, buffer, size)`.  It is defined when the
pointer holds the address of the function of that signature in `callbacks.c`;
for a null pointer, for the address of a function of another signature and for
a function outside the file, the embedding gives no result. -/
def lfs_call_read {σ : Type} (B : Backend σ) (cfg : lfs_config) (block : lfs_block_t)
    (off : lfs_off_t) (buffer : Ptr) (size : lfs_size_t) (w : σ) : Option (Int × σ) :=
  match cfg.read with
  | FnPtr.spark_lfs_read => some (spark_lfs_read B cfg block off buffer size w)
  | _ => none

/-- The call `cfg->prog(cfg, block, off, buffer, size)`. -/
def lfs_call_prog {σ : Type} (B : Backend σ) (cfg : lfs_config) (block : lfs_block_t)
    (off : lfs_off_t) (buffer : Ptr) (size : lfs_size_t) (w : σ) : Option (Int × σ) :=
  match cfg.prog with
  | FnPtr.spark_lfs_prog => some (spark_lfs_prog B cfg block off buffer size w)
  | _ => none

/-- The call `cfg->erase(cfg, block)`. -/
def lfs_call_erase {σ : Type} (B : Backend σ) (cfg : lfs_config) (block : lfs_block_t)
    (w : σ) : Option (Int × σ) :=
  match cfg.erase with
  | FnPtr.spark_lfs_erase => some (spark_lfs_erase B cfg block w)
  | _ => none

/-- The call `cfg->sync(cfg)`. -/
def lfs_call_sync {σ : Type} (B : Backend σ) (cfg : lfs_config) (w : σ) :
    Option (Int × σ) :=
  match cfg.sync with
  | FnPtr.spark_lfs_sync => some (spark_lfs_sync B cfg w)
  | _ => none

/-! ## Observing what the backend receives -/

/-- One invocation of a backend function, with the arguments it received. -/
inductive Call where
  | read (ctx : Ptr) (block : lfs_block_t) (off : lfs_off_t) (buffer : Ptr) (size : lfs_size_t)
  | prog (ctx : Ptr) (block : lfs_block_t) (off : lfs_off_t) (buffer : Ptr) (size : lfs_size_t)
  | erase (ctx : Ptr) (block : lfs_block_t)
  | sync (ctx : Ptr)
  deriving DecidableEq, Repr

/-- The context handle an invocation received. -/
def Call.ctx : Call → Ptr
  | Call.read ctx _ _ _ _ => ctx
  | Call.prog ctx _ _ _ _ => ctx
  | Call.erase ctx _ => ctx
  | Call.sync ctx => ctx

/-- The backend `B` with a journal: every invocation of one of its four
functions runs the function of `B` and appends the invocation to the journal.
The journal is what a recording fake backend of a test harness observes. -/
def traced {σ : Type} (B : Backend σ) : Backend (σ × List Call) where
  go_lfs_read ctx block off buffer size s :=
    let r := B.go_lfs_read ctx block off buffer size s.1
    (r.1, (r.2, s.2 ++ [Call.read ctx block off buffer size]))
  go_lfs_prog ctx block off buffer size s :=
    let r := B.go_lfs_prog ctx block off buffer size s.1
    (r.1, (r.2, s.2 ++ [Call.prog ctx block off buffer size]))
  go_lfs_erase ctx block s :=
    let r := B.go_lfs_erase ctx block s.1
    (r.1, (r.2, s.2 ++ [Call.erase ctx block]))
  go_lfs_sync ctx s :=
    let r := B.go_lfs_sync ctx s.1
    (r.1, (r.2, s.2 ++ [Call.sync ctx]))

/-! ## Sequences of calls -/

/-- The operation of a call and its arguments other than the configuration. -/
inductive Op where
  | read (block : lfs_block_t) (off : lfs_off_t) (buffer : Ptr) (size : lfs_size_t)
  | prog (block : lfs_block_t) (off : lfs_off_t) (buffer : Ptr) (size : lfs_size_t)
  | erase (block : lfs_block_t)
  | sync
  deriving DecidableEq, Repr

/-- One call of the bridge function of `op` with configuration `c`. -/
def bridgeCall {σ : Type} (B : Backend σ) (c : lfs_config) : Op → σ → Int × σ
  | Op.read block off buffer size, w => spark_lfs_read B c block off buffer size w
  | Op.prog block off buffer size, w => spark_lfs_prog B c block off buffer size w
  | Op.erase block, w => spark_lfs_erase B c block w
  | Op.sync, w => spark_lfs_sync B c w

/-- One direct invocation of the backend function of `op` with context `ctx`. -/
def directCall {σ : Type} (B : Backend σ) (ctx : Ptr) : Op → σ → Int × σ
  | Op.read block off buffer size, w => B.go_lfs_read ctx block off buffer size w
  | Op.prog block off buffer size, w => B.go_lfs_prog ctx block off buffer size w
  | Op.erase block, w => B.go_lfs_erase ctx block w
  | Op.sync, w => B.go_lfs_sync ctx w

/-- A sequence of bridge calls, one after the other: the result codes in order
and the final state. -/
def runBridge {σ : Type} (B : Backend σ) : List (lfs_config × Op) → σ → List Int × σ
  | [], w => ([], w)
  | (c, op) :: calls, w =>
    let r := bridgeCall B c op w
    let t := runBridge B calls r.2
    (r.1 :: t.1, t.2)

/-- A sequence of direct backend invocations, one after the other. -/
def runDirect {σ : Type} (B : Backend σ) : List (Ptr × Op) → σ → List Int × σ
  | [], w => ([], w)
  | (ctx, op) :: calls, w =>
    let r := directCall B ctx op w
    let t := runDirect B calls r.2
    (r.1 :: t.1, t.2)

/-! ## The storage backend described by the spec

`callbacks.c` declares the four backend functions and defines none of them.
The definitions of this section follow sections 3, 4.1 and 7 of the spec. -/

/-- One byte of a buffer or of the storage medium. -/
abbrev Byte := Fin 256

/-- Modelled from the spec: the error taxonomy of section 7 (I/O failure, invalid
range, not-erased violation); the backend functions that report them are not
part of the sources. -/
inductive ErrorKind where
  | ioFailure
  | invalidRange
  | notErased
  deriving DecidableEq, Repr

/-- Modelled from the spec: one storage device, the state behind a device context
handle, which the backend functions absent from the sources act on.  It has a
fixed block size and block count, an erased pattern, and the bytes it stores.
`detects_not_erased` says whether the device reports a program on a region that
is not in the erased state; `faulty` marks the blocks on which the medium cannot
complete an operation (I/O failure); `errno k` fixes the result code of the
error kind `k` as the negative integer `-(errno k + 1)`. -/
structure Device where
  block_size : Nat
  block_count : Nat
  erased : Byte
  detects_not_erased : Bool
  errno : ErrorKind → Nat
  faulty : lfs_block_t → Bool
  cells : lfs_block_t → lfs_off_t → Byte

/-- Modelled from the spec: the state the absent backend functions work on, the
byte-addressed memory that buffers point into and the device that each context
handle identifies. -/
structure World where
  mem : Ptr → Byte
  dev : Ptr → Device

/-- Modelled from the spec: the result code of an error kind, which the absent
backend functions return; "zero means success, negative values are error
codes". -/
def Device.resultCode (d : Device) (k : ErrorKind) : Int :=
  Int.negSucc (d.errno k)

/-- Modelled from the spec: the range check of the absent backend functions; a
range is invalid when "block or offset+size [is] outside device bounds". -/
def Device.valid (d : Device) (block : lfs_block_t) (off : lfs_off_t) (size : lfs_size_t) :
    Bool :=
  decide (block < d.block_count) && decide (off + size ≤ d.block_size)

/-- Modelled from the spec: whether the absent `go_lfs_prog` finds every byte of
the range `[off, off+size)` of `block` in the erased state. -/
def Device.regionErased (d : Device) (block : lfs_block_t) (off : lfs_off_t)
    (size : lfs_size_t) : Bool :=
  (List.range size).all (fun i => d.cells block (off + i) == d.erased)

/-- Modelled from the spec: the device after the absent `go_lfs_prog` has written
`size` bytes, read from memory at `buffer`, to the range `[off, off+size)` of
`block`. -/
def Device.program (d : Device) (mem : Ptr → Byte) (block : lfs_block_t) (off : lfs_off_t)
    (buffer : Ptr) (size : lfs_size_t) : Device :=
  { d with cells := fun b o =>
      if b = block ∧ off ≤ o ∧ o < off + size then mem (buffer + (o - off)) else d.cells b o }

/-- Modelled from the spec: the device after the absent `go_lfs_erase` has reset
"the entire block to its backend's erased state". -/
def Device.eraseBlock (d : Device) (block : lfs_block_t) : Device :=
  { d with cells := fun b o => if b = block then d.erased else d.cells b o }

/-- Modelled from the spec: the state in which context handle `ctx` identifies
device `d` and every other handle its device of before; used by the absent
`go_lfs_prog` and `go_lfs_erase`. -/
def World.setDev (w : World) (ctx : Ptr) (d : Device) : World :=
  { w with dev := fun h => if h = ctx then d else w.dev h }

/-- The `n` bytes of memory from address `p` on. -/
def loadBytes (mem : Ptr → Byte) (p : Ptr) (n : Nat) : List Byte :=
  (List.range n).map (fun i => mem (p + i))

namespace Model

/-- Modelled from the spec: `go_lfs_read`, declared at line 7 of `callbacks.c` and
defined outside the sources.  Read "fills `buffer[0..size)` with the bytes
stored at `block`'s `[offset, offset+size)` range"; an out-of-range address and
an I/O failure are reported as negative result codes and leave the state as it
is. -/
def go_lfs_read (ctx : Ptr) (block : lfs_block_t) (off : lfs_off_t) (buffer : Ptr)
    (size : lfs_size_t) (w : World) : Int × World :=
  let d := w.dev ctx
  if d.valid block off size = false then (d.resultCode ErrorKind.invalidRange, w)
  else if d.faulty block = true then (d.resultCode ErrorKind.ioFailure, w)
  else
    (0, { w with mem := fun a =>
      if buffer ≤ a ∧ a < buffer + size then d.cells block (off + (a - buffer)) else w.mem a })

/-- Modelled from the spec: `go_lfs_prog`, declared at line 8 of `callbacks.c` and
defined outside the sources.  Program "writes `buffer[0..size)` to `block`'s
`[offset, offset+size)` range" and takes the buffer as read-only input; an
out-of-range address, an I/O failure and a detected not-erased violation are
reported as negative result codes and leave the state as it is. -/
def go_lfs_prog (ctx : Ptr) (block : lfs_block_t) (off : lfs_off_t) (buffer : Ptr)
    (size : lfs_size_t) (w : World) : Int × World :=
  let d := w.dev ctx
  if d.valid block off size = false then (d.resultCode ErrorKind.invalidRange, w)
  else if d.faulty block = true then (d.resultCode ErrorKind.ioFailure, w)
  else if (d.detects_not_erased && !d.regionErased block off size) = true then
    (d.resultCode ErrorKind.notErased, w)
  else (0, w.setDev ctx (d.program w.mem block off buffer size))

/-- Modelled from the spec: `go_lfs_erase`, declared at line 9 of `callbacks.c` and
defined outside the sources.  Erase "resets the entire block to its backend's
erased state"; an out-of-range block and an I/O failure are reported as negative
result codes and leave the state as it is. -/
def go_lfs_erase (ctx : Ptr) (block : lfs_block_t) (w : World) : Int × World :=
  let d := w.dev ctx
  if block < d.block_count then
    if d.faulty block = true then (d.resultCode ErrorKind.ioFailure, w)
    else (0, w.setDev ctx (d.eraseBlock block))
  else (d.resultCode ErrorKind.invalidRange, w)

/-- Modelled from the spec: `go_lfs_sync`, declared at line 10 of `callbacks.c` and
defined outside the sources.  The modelled device applies every program and
erase at once and buffers nothing, so there is nothing left to flush. -/
def go_lfs_sync (_ctx : Ptr) (w : World) : Int × World :=
  (0, w)

end Model

/-- Modelled from the spec: the storage backend made of the four functions that
`callbacks.c` declares and does not define. -/
def goBackend : Backend World where
  go_lfs_read := Model.go_lfs_read
  go_lfs_prog := Model.go_lfs_prog
  go_lfs_erase := Model.go_lfs_erase
  go_lfs_sync := Model.go_lfs_sync

/-! ## Concrete devices and configurations -/

/-- A device with block size 256 and block count 16 in which every byte of every
block holds `fill`.  The erased pattern is `0xFF`, not-erased programs are
detected, no block is faulty, and every error kind has result code `-5`. -/
def testDevice (fill : Byte) : Device where
  block_size := 256
  block_count := 16
  erased := 0xFF
  detects_not_erased := true
  errno := fun _ => 4
  faulty := fun _ => false
  cells := fun _ _ => fill

/-- A state in which every context handle identifies `testDevice fill` and the
256 bytes of memory from address 4096 on hold `0xAA`, every other byte 0. -/
def testWorld (fill : Byte) : World where
  mem := fun a => if 4096 ≤ a ∧ a < 4096 + 256 then 0xAA else 0
  dev := fun _ => testDevice fill

/-- A configuration with context handle `ctx`, block size 256, block count 16 and
no binding set. -/
def testConfig (ctx : Ptr) : lfs_config where
  context := ctx
  read := FnPtr.null
  prog := FnPtr.null
  erase := FnPtr.null
  sync := FnPtr.null
  read_size := 16
  prog_size := 16
  block_size := 256
  block_count := 16
  rest := []

/-! ## Facts about the modelled backend, shared by the theorems below -/

theorem Device.resultCode_neg (d : Device) (k : ErrorKind) : d.resultCode k < 0 :=
  Int.negSucc_lt_zero _

theorem Device.resultCode_ne_zero (d : Device) (k : ErrorKind) : d.resultCode k ≠ 0 :=
  ne_of_lt (d.resultCode_neg k)

theorem loadBytes_congr (m1 m2 : Ptr → Byte) (p q : Ptr) (n : Nat)
    (h : ∀ i, i < n → m1 (p + i) = m2 (q + i)) : loadBytes m1 p n = loadBytes m2 q n := by
  unfold loadBytes
  apply List.ext_getElem
  · simp
  · intro i h1 h2
    simp only [List.length_map, List.length_range] at h1
    simp [h i h1]

theorem loadBytes_eq_replicate (m : Ptr → Byte) (p : Ptr) (n : Nat) (b : Byte)
    (h : ∀ i, i < n → m (p + i) = b) : loadBytes m p n = List.replicate n b := by
  unfold loadBytes
  apply List.ext_getElem
  · simp
  · intro i h1 h2
    simp only [List.length_map, List.length_range] at h1
    simp [h i h1]

theorem Model.go_lfs_prog_mem (ctx : Ptr) (block : lfs_block_t) (off : lfs_off_t) (buffer : Ptr)
    (size : lfs_size_t) (w : World) :
    (Model.go_lfs_prog ctx block off buffer size w).2.mem = w.mem := by
  unfold Model.go_lfs_prog
  simp only
  split_ifs <;> rfl

theorem Model.go_lfs_prog_ok (ctx : Ptr) (block : lfs_block_t) (off : lfs_off_t) (buffer : Ptr)
    (size : lfs_size_t) (w : World)
    (h : (Model.go_lfs_prog ctx block off buffer size w).1 = 0) :
    (w.dev ctx).valid block off size = true ∧ (w.dev ctx).faulty block = false ∧
    (Model.go_lfs_prog ctx block off buffer size w).2
      = w.setDev ctx ((w.dev ctx).program w.mem block off buffer size) := by
  unfold Model.go_lfs_prog at h ⊢
  simp only at h ⊢
  split_ifs at h ⊢ with h1 h2 h3
  · exact absurd h (Device.resultCode_ne_zero _ _)
  · exact absurd h (Device.resultCode_ne_zero _ _)
  · exact absurd h (Device.resultCode_ne_zero _ _)
  · exact ⟨by simpa using h1, by simpa using h2, rfl⟩

theorem Model.go_lfs_erase_ok (ctx : Ptr) (block : lfs_block_t) (w : World)
    (h : (Model.go_lfs_erase ctx block w).1 = 0) :
    block < (w.dev ctx).block_count ∧ (w.dev ctx).faulty block = false ∧
    (Model.go_lfs_erase ctx block w).2 = w.setDev ctx ((w.dev ctx).eraseBlock block) := by
  unfold Model.go_lfs_erase at h ⊢
  simp only at h ⊢
  split_ifs at h ⊢ with h1 h2
  · exact absurd h (Device.resultCode_ne_zero _ _)
  · exact ⟨h1, by simpa using h2, rfl⟩
  · exact absurd h (Device.resultCode_ne_zero _ _)

theorem Model.go_lfs_read_ok (ctx : Ptr) (block : lfs_block_t) (off : lfs_off_t) (buffer : Ptr)
    (size : lfs_size_t) (w : World) (hv : (w.dev ctx).valid block off size = true)
    (hf : (w.dev ctx).faulty block = false) :
    (Model.go_lfs_read ctx block off buffer size w).1 = 0 ∧
    ∀ i, i < size →
      (Model.go_lfs_read ctx block off buffer size w).2.mem (buffer + i)
        = (w.dev ctx).cells block (off + i) := by
  unfold Model.go_lfs_read
  simp only [hv, hf]
  refine ⟨by simp, ?_⟩
  intro i hi
  simp [hi]

/-! ## The bridge, for every backend -/

/-- C1: for every backend, configuration and argument tuple, each of the four
bridge operations returns exactly the integer that the corresponding backend
function returns for that call, whatever its value: nothing remaps, clamps or
replaces a result code. -/
theorem bridge_returns_backend_result {σ : Type} (B : Backend σ) (c : lfs_config)
    (block : lfs_block_t) (off : lfs_off_t) (buffer : Ptr) (size : lfs_size_t) (w : σ) :
    (spark_lfs_read B c block off buffer size w).1
        = (B.go_lfs_read c.context block off buffer size w).1
    ∧ (spark_lfs_prog B c block off buffer size w).1
        = (B.go_lfs_prog c.context block off buffer size w).1
    ∧ (spark_lfs_erase B c block w).1 = (B.go_lfs_erase c.context block w).1
    ∧ (spark_lfs_sync B c w).1 = (B.go_lfs_sync c.context w).1 :=
  ⟨rfl, rfl, rfl, rfl⟩

/-- C2: for each of the four bridge operations the context handle that the
backend function receives, as a recording backend observes it, is `c.context`
of the configuration passed to that call; two calls with configurations `c1`
and `c2` make the backend see `c1.context` and then `c2.context`. -/
theorem backend_receives_config_context {σ : Type} (B : Backend σ) (c : lfs_config)
    (block : lfs_block_t) (off : lfs_off_t) (buffer : Ptr) (size : lfs_size_t)
    (s : σ × List Call) :
    (spark_lfs_read (traced B) c block off buffer size s).2.2.map Call.ctx
        = s.2.map Call.ctx ++ [c.context]
    ∧ (spark_lfs_prog (traced B) c block off buffer size s).2.2.map Call.ctx
        = s.2.map Call.ctx ++ [c.context]
    ∧ (spark_lfs_erase (traced B) c block s).2.2.map Call.ctx = s.2.map Call.ctx ++ [c.context]
    ∧ (spark_lfs_sync (traced B) c s).2.2.map Call.ctx = s.2.map Call.ctx ++ [c.context]
    ∧ ∀ (c1 c2 : lfs_config) (op1 op2 : Op),
        (bridgeCall (traced B) c2 op2 (bridgeCall (traced B) c1 op1 s).2).2.2.map Call.ctx
          = s.2.map Call.ctx ++ [c1.context, c2.context] := by
  refine ⟨?_, ?_, ?_, ?_, ?_⟩
  · simp [spark_lfs_read, traced, Call.ctx]
  · simp [spark_lfs_prog, traced, Call.ctx]
  · simp [spark_lfs_erase, traced, Call.ctx]
  · simp [spark_lfs_sync, traced, Call.ctx]
  · intro c1 c2 op1 op2
    cases op1 <;> cases op2 <;>
      simp [bridgeCall, spark_lfs_read, spark_lfs_prog, spark_lfs_erase, spark_lfs_sync,
        traced, Call.ctx]

/-- C3: for every block, off, buffer and size, with no condition on them,
`spark_lfs_read` and `spark_lfs_prog` invoke the backend once with the block,
off, buffer and size they were given, and `spark_lfs_erase` invokes it once with
the block it was given: the journal of a recording backend grows by exactly
that invocation. -/
theorem bridge_forwards_addressing {σ : Type} (B : Backend σ) (c : lfs_config)
    (block : lfs_block_t) (off : lfs_off_t) (buffer : Ptr) (size : lfs_size_t)
    (s : σ × List Call) :
    (spark_lfs_read (traced B) c block off buffer size s).2.2
        = s.2 ++ [Call.read c.context block off buffer size]
    ∧ (spark_lfs_prog (traced B) c block off buffer size s).2.2
        = s.2 ++ [Call.prog c.context block off buffer size]
    ∧ (spark_lfs_erase (traced B) c block s).2.2 = s.2 ++ [Call.erase c.context block] :=
  ⟨rfl, rfl, rfl⟩

/-- C4: for every backend state and every bridge call the state after the call is
the state after one direct invocation of the corresponding backend function
with the same context and arguments, whatever code that invocation returns; a
recording backend counts exactly one invocation per bridge call; and a sequence
of bridge calls yields the same result codes and the same final state as the
same sequence of direct backend invocations. -/
theorem bridge_stateless_no_retry {σ : Type} (B : Backend σ) :
    (∀ (c : lfs_config) (block : lfs_block_t) (off : lfs_off_t) (buffer : Ptr)
        (size : lfs_size_t) (w : σ),
        (spark_lfs_read B c block off buffer size w).2
            = (B.go_lfs_read c.context block off buffer size w).2
        ∧ (spark_lfs_prog B c block off buffer size w).2
            = (B.go_lfs_prog c.context block off buffer size w).2
        ∧ (spark_lfs_erase B c block w).2 = (B.go_lfs_erase c.context block w).2
        ∧ (spark_lfs_sync B c w).2 = (B.go_lfs_sync c.context w).2)
    ∧ (∀ (c : lfs_config) (op : Op) (s : σ × List Call),
        (bridgeCall (traced B) c op s).2.2.length = s.2.length + 1)
    ∧ (∀ (calls : List (lfs_config × Op)) (w : σ),
        runBridge B calls w = runDirect B (calls.map (fun p => (p.1.context, p.2))) w) := by
  refine ⟨fun _ _ _ _ _ _ => ⟨rfl, rfl, rfl, rfl⟩, ?_, ?_⟩
  · intro c op s
    cases op <;>
      simp [bridgeCall, spark_lfs_read, spark_lfs_prog, spark_lfs_erase, spark_lfs_sync, traced]
  · intro calls
    induction calls with
    | nil => intro w; rfl
    | cons call calls ih =>
      intro w
      obtain ⟨c, op⟩ := call
      have hstep : bridgeCall B c op w = directCall B c.context op w := by
        cases op <;> rfl
      simp only [runBridge, runDirect, List.map_cons, hstep, ih]

/-- C9: after `spark_lfs_config_init` the four bindings hold the addresses of
`spark_lfs_read`, `spark_lfs_prog`, `spark_lfs_erase` and `spark_lfs_sync`, in
this order, and a call through `read`, `prog`, `erase` or `sync` of the
initialised configuration, on that configuration, is the call of `go_lfs_read`,
`go_lfs_prog`, `go_lfs_erase` or `go_lfs_sync` with the context of the
configuration. -/
theorem config_init_wires_bindings {σ : Type} (B : Backend σ) (cfg : lfs_config)
    (block : lfs_block_t) (off : lfs_off_t) (buffer : Ptr) (size : lfs_size_t) (w : σ) :
    (spark_lfs_config_init cfg).read = FnPtr.spark_lfs_read
    ∧ (spark_lfs_config_init cfg).prog = FnPtr.spark_lfs_prog
    ∧ (spark_lfs_config_init cfg).erase = FnPtr.spark_lfs_erase
    ∧ (spark_lfs_config_init cfg).sync = FnPtr.spark_lfs_sync
    ∧ lfs_call_read B (spark_lfs_config_init cfg) block off buffer size w
        = some (B.go_lfs_read cfg.context block off buffer size w)
    ∧ lfs_call_prog B (spark_lfs_config_init cfg) block off buffer size w
        = some (B.go_lfs_prog cfg.context block off buffer size w)
    ∧ lfs_call_erase B (spark_lfs_config_init cfg) block w
        = some (B.go_lfs_erase cfg.context block w)
    ∧ lfs_call_sync B (spark_lfs_config_init cfg) w = some (B.go_lfs_sync cfg.context w) :=
  ⟨rfl, rfl, rfl, rfl, rfl, rfl, rfl, rfl⟩

/-- C10: `spark_lfs_config_init` leaves every member other than `read`, `prog`,
`erase` and `sync` as it was (the context, the read and program granularity,
the block size, the block count and the members the file does not name);
setting those members before the call or after it gives the same
configuration; and a second call changes nothing. -/
theorem config_init_frame (cfg : lfs_config) :
    (spark_lfs_config_init cfg).context = cfg.context
    ∧ (spark_lfs_config_init cfg).read_size = cfg.read_size
    ∧ (spark_lfs_config_init cfg).prog_size = cfg.prog_size
    ∧ (spark_lfs_config_init cfg).block_size = cfg.block_size
    ∧ (spark_lfs_config_init cfg).block_count = cfg.block_count
    ∧ (spark_lfs_config_init cfg).rest = cfg.rest
    ∧ (∀ (ctx : Ptr) (rs ps bs bc : lfs_size_t) (rest : List Nat),
        spark_lfs_config_init
            { cfg with context := ctx, read_size := rs, prog_size := ps, block_size := bs,
                       block_count := bc, rest := rest }
          = { spark_lfs_config_init cfg with
                context := ctx, read_size := rs, prog_size := ps, block_size := bs,
                block_count := bc, rest := rest })
    ∧ spark_lfs_config_init (spark_lfs_config_init cfg) = spark_lfs_config_init cfg :=
  ⟨rfl, rfl, rfl, rfl, rfl, rfl, fun _ _ _ _ _ _ => rfl, rfl⟩

/-! ## The bridge over the backend described by the spec -/

/-- C5: for a valid block, offset and size of the device behind `c.context` and
buffers at any addresses `src` and `dst`, if a program through the bridge
returns 0 then the read through the bridge of the same block, offset and size
that follows returns 0 and leaves in the `size` bytes at `dst` exactly the
`size` bytes that were at `src` when the program was issued. -/
theorem prog_then_read_roundtrip (w : World) (c : lfs_config) (block : lfs_block_t)
    (off : lfs_off_t) (size : lfs_size_t) (src dst : Ptr)
    (hvalid : (w.dev c.context).valid block off size = true)
    (hprog : (spark_lfs_prog goBackend c block off src size w).1 = 0) :
    (spark_lfs_read goBackend c block off dst size
        (spark_lfs_prog goBackend c block off src size w).2).1 = 0
    ∧ loadBytes (spark_lfs_read goBackend c block off dst size
        (spark_lfs_prog goBackend c block off src size w).2).2.mem dst size
      = loadBytes w.mem src size := by
  simp only [spark_lfs_prog, spark_lfs_read, goBackend] at hprog ⊢
  obtain ⟨_, hf, hw⟩ := Model.go_lfs_prog_ok c.context block off src size w hprog
  rw [hw]
  have hv1 : ((w.setDev c.context
      ((w.dev c.context).program w.mem block off src size)).dev c.context).valid block off size
      = true := by
    simpa [World.setDev, Device.program, Device.valid] using hvalid
  have hf1 : ((w.setDev c.context
      ((w.dev c.context).program w.mem block off src size)).dev c.context).faulty block
      = false := by
    simpa [World.setDev, Device.program] using hf
  obtain ⟨hr, hbytes⟩ := Model.go_lfs_read_ok c.context block off dst size _ hv1 hf1
  refine ⟨hr, loadBytes_congr _ _ _ _ _ ?_⟩
  intro i hi
  rw [hbytes i hi]
  simp [World.setDev, Device.program, hi]

set_option maxRecDepth 20000 in
/-- The scenario of the spec for C5: block size 256, block count 16, an erased
block 3, a program of 256 bytes of `0xAA` at offset 0 and the read that
follows. -/
theorem prog_then_read_roundtrip_witness :
    (((testWorld 0xFF).dev (testConfig 7).context).valid 3 0 256 = true
      ∧ (spark_lfs_prog goBackend (testConfig 7) 3 0 4096 256 (testWorld 0xFF)).1 = 0)
    ∧ (spark_lfs_read goBackend (testConfig 7) 3 0 8192 256
        (spark_lfs_prog goBackend (testConfig 7) 3 0 4096 256 (testWorld 0xFF)).2).1 = 0
    ∧ loadBytes (spark_lfs_read goBackend (testConfig 7) 3 0 8192 256
        (spark_lfs_prog goBackend (testConfig 7) 3 0 4096 256 (testWorld 0xFF)).2).2.mem 8192 256
      = loadBytes (testWorld 0xFF).mem 4096 256 :=
  ⟨⟨by decide, by decide⟩,
    prog_then_read_roundtrip (testWorld 0xFF) (testConfig 7) 3 0 256 4096 8192
      (by decide) (by decide)⟩

/-- C6: a read through the bridge whose block address is not below the block
count of the device behind `c.context` returns a negative result code, for
every offset, buffer and size. -/
theorem read_out_of_range_negative (w : World) (c : lfs_config) (block : lfs_block_t)
    (off : lfs_off_t) (buffer : Ptr) (size : lfs_size_t)
    (hblock : (w.dev c.context).block_count ≤ block) :
    (spark_lfs_read goBackend c block off buffer size w).1 < 0 := by
  have hv : (w.dev c.context).valid block off size = false := by
    simp [Device.valid, Nat.not_lt.mpr hblock]
  simp only [spark_lfs_read, goBackend, Model.go_lfs_read, hv, if_true]
  exact Device.resultCode_neg _ _

/-- The scenario of the spec for C6: a read of block 20 on a 16-block device. -/
theorem read_out_of_range_negative_witness :
    ((testWorld 0xFF).dev (testConfig 7).context).block_count ≤ 20
    ∧ (spark_lfs_read goBackend (testConfig 7) 20 0 8192 256 (testWorld 0xFF)).1 < 0 :=
  ⟨by decide, read_out_of_range_negative (testWorld 0xFF) (testConfig 7) 20 0 8192 256
    (by decide)⟩

/-- C7: for every block of the device behind `c.context`, if an erase through the
bridge returns 0 then the read through the bridge of the whole block (offset 0,
size the block size) that follows returns 0 and every byte of the read buffer
is the erased pattern of the device. -/
theorem erase_then_read_erased (w : World) (c : lfs_config) (block : lfs_block_t) (dst : Ptr)
    (hblock : block < (w.dev c.context).block_count)
    (herase : (spark_lfs_erase goBackend c block w).1 = 0) :
    (spark_lfs_read goBackend c block 0 dst (w.dev c.context).block_size
        (spark_lfs_erase goBackend c block w).2).1 = 0
    ∧ loadBytes (spark_lfs_read goBackend c block 0 dst (w.dev c.context).block_size
        (spark_lfs_erase goBackend c block w).2).2.mem dst (w.dev c.context).block_size
      = List.replicate (w.dev c.context).block_size (w.dev c.context).erased := by
  simp only [spark_lfs_erase, spark_lfs_read, goBackend] at herase ⊢
  obtain ⟨_, hf, hw⟩ := Model.go_lfs_erase_ok c.context block w herase
  rw [hw]
  have hv1 : ((w.setDev c.context ((w.dev c.context).eraseBlock block)).dev c.context).valid
      block 0 (w.dev c.context).block_size = true := by
    simp [World.setDev, Device.eraseBlock, Device.valid, hblock]
  have hf1 : ((w.setDev c.context ((w.dev c.context).eraseBlock block)).dev c.context).faulty
      block = false := by
    simpa [World.setDev, Device.eraseBlock] using hf
  obtain ⟨hr, hbytes⟩ :=
    Model.go_lfs_read_ok c.context block 0 dst (w.dev c.context).block_size _ hv1 hf1
  refine ⟨hr, loadBytes_eq_replicate _ _ _ _ ?_⟩
  intro i hi
  rw [hbytes i hi]
  simp [World.setDev, Device.eraseBlock]

/-- The scenario of the spec for C7: block size 256, block count 16, an erase of
block 3, which holds zeros, and the read of its 256 bytes that follows. -/
theorem erase_then_read_erased_witness :
    (3 < ((testWorld 0x00).dev (testConfig 7).context).block_count
      ∧ (spark_lfs_erase goBackend (testConfig 7) 3 (testWorld 0x00)).1 = 0)
    ∧ (spark_lfs_read goBackend (testConfig 7) 3 0 8192
        ((testWorld 0x00).dev (testConfig 7).context).block_size
        (spark_lfs_erase goBackend (testConfig 7) 3 (testWorld 0x00)).2).1 = 0
    ∧ loadBytes (spark_lfs_read goBackend (testConfig 7) 3 0 8192
        ((testWorld 0x00).dev (testConfig 7).context).block_size
        (spark_lfs_erase goBackend (testConfig 7) 3 (testWorld 0x00)).2).2.mem 8192
        ((testWorld 0x00).dev (testConfig 7).context).block_size
      = List.replicate ((testWorld 0x00).dev (testConfig 7).context).block_size
          ((testWorld 0x00).dev (testConfig 7).context).erased :=
  ⟨⟨by decide, by decide⟩,
    erase_then_read_erased (testWorld 0x00) (testConfig 7) 3 8192 (by decide) (by decide)⟩

/-- C8: the bytes of the buffer passed to `spark_lfs_prog` are the same after the
call as before it, for every configuration, block, offset, size, buffer address
and memory contents, whatever result code the call returns; the call changes no
byte of memory at all. -/
theorem prog_buffer_unchanged (w : World) (c : lfs_config) (block : lfs_block_t)
    (off : lfs_off_t) (buffer : Ptr) (size : lfs_size_t) :
    loadBytes (spark_lfs_prog goBackend c block off buffer size w).2.mem buffer size
        = loadBytes w.mem buffer size
    ∧ (spark_lfs_prog goBackend c block off buffer size w).2.mem = w.mem := by
  have h : (spark_lfs_prog goBackend c block off buffer size w).2.mem = w.mem :=
    Model.go_lfs_prog_mem c.context block off buffer size w
  exact ⟨by rw [h], h⟩

end Spark
